import Mathlib

/-!
Shallow embedding of the azimuth-authorization-webhook decision engine
(src/main.go): the subject classifier `isPrivilegedSystemUser`, the policy
evaluator `isRequestAuthorized`, and the decision rendering performed by
`CreateWebhookAuthorizer`.  Go strings are modelled as `List Char`; the two
regular expressions compiled by the classifier (`system:.+` and
`system:serviceaccount:.+`) are literal patterns followed by `.+`, so their
unanchored `MatchString` semantics is modelled exactly: the pattern matches
iff the literal occurs somewhere in the subject immediately followed by at
least one non-newline character (Go `.` does not match a newline).
-/

/-- Go strings, modelled as lists of characters. -/
abbrev Str := List Char

/-- Mirrors authorizationv1.ResourceAttributes (the fields read by the
webhook plus the remaining string fields; Namespace is called ns because
namespace is a Lean keyword). -/
structure ResourceAttributes where
  ns : Str
  verb : Str
  resource : Str
  name : Str
  apiGroup : Str
  apiVersion : Str
deriving DecidableEq, Repr

/-- Mirrors authorizationv1.NonResourceAttributes. -/
structure NonResourceAttributes where
  path : Str
  verb : Str
deriving DecidableEq, Repr

/-- Mirrors SubjectAccessReviewSpecAPI from src/main.go. -/
structure SubjectAccessReviewSpecAPI where
  resourceAttributes : Option ResourceAttributes
  nonResourceAttributes : Option NonResourceAttributes
  user : Str
  group : List Str
  groups : List Str
  extra : List (Str × List Str)
  uid : Str
deriving DecidableEq, Repr

/-- Mirrors SubjectAccessReviewAPI from src/main.go; apiVersion and kind
come from the embedded metav1.TypeMeta (ObjectMeta and the incoming Status
carry no data read by the webhook and are omitted). -/
structure SubjectAccessReviewAPI where
  apiVersion : Str
  kind : Str
  spec : SubjectAccessReviewSpecAPI
deriving DecidableEq, Repr

/-- Mirrors authorizationv1.SubjectAccessReviewStatus as populated by the
handler (the spec calls this triple the Decision). -/
structure SubjectAccessReviewStatus where
  allowed : Bool
  denied : Bool
  reason : Str
deriving DecidableEq, Repr

/-- Mirrors var readonlyVerbs from src/main.go line 47. -/
def readonlyVerbs : List Str :=
  ["get".toList, "list".toList, "watch".toList, "proxy".toList]

/-- The literal part of the pattern "system:.+" (src/main.go line 52). -/
def sysPat : Str := "system:".toList

/-- The literal part of the pattern "system:serviceaccount:.+"
(src/main.go line 53). -/
def saPat : Str := "system:serviceaccount:".toList

/-- The anonymous user string checked at src/main.go line 55. -/
def anonUser : Str := "system:anonymous".toList

/-- Holds when the literal pattern occurs at the head of s immediately
followed by at least one non-newline character: the anchored-at-this-spot
case of Go MatchString for a pattern of the form literal.+ . -/
def matchHere (pat s : Str) : Bool :=
  pat.isPrefixOf s &&
    match s.drop pat.length with
    | [] => false
    | d :: _ => d != '\n'

/-- Models Go regexp.MatchString for a pattern of the form literal.+ :
unanchored, so the pattern may match at any position of s. -/
def reMatchString (pat : Str) : Str → Bool
  | [] => false
  | c :: rest => matchHere pat (c :: rest) || reMatchString pat rest

/-- Holds when pat occurs somewhere in s followed by at least one further
character (newline or not); used to state the amended substring claims. -/
def occursWithTail (pat : Str) : Str → Bool
  | [] => false
  | c :: rest =>
      (pat.isPrefixOf (c :: rest) && decide (pat.length < (c :: rest).length))
        || occursWithTail pat rest

/-- Models Go strings.Split(s, ":"): the colon-delimited segments of s,
empty segments included. -/
def splitColon : Str → List Str
  | [] => [[]]
  | c :: rest =>
      if c = ':' then [] :: splitColon rest
      else
        match splitColon rest with
        | [] => [[c]]
        | seg :: segs => (c :: seg) :: segs

/-- Mirrors isPrivilegedSystemUser from src/main.go lines 50-67.  The Go
code indexes strings.Split(user, ":")[2]; here the index access is modelled
by getD, and isPrivilegedSystemUserChecked below shows the access is always
in bounds on the branch that performs it. -/
def isPrivilegedSystemUser (user : Str) (protectedNamespaces : List Str) : Bool :=
  if user = anonUser then
    false
  else if reMatchString saPat user then
    protectedNamespaces.contains ((splitColon user).getD 2 [])
  else if reMatchString sysPat user then
    true
  else
    false

/-- Variant of the classifier in which the Go index access
strings.Split(user, ":")[2] is modelled as a fallible lookup: none models
the out-of-range panic. -/
def isPrivilegedSystemUserChecked (user : Str) (protectedNamespaces : List Str) :
    Option Bool :=
  if user = anonUser then
    some false
  else if reMatchString saPat user then
    match (splitColon user).get? 2 with
    | some ns => some (protectedNamespaces.contains ns)
    | none => none
  else if reMatchString sysPat user then
    some true
  else
    some false

/-- Mirrors isRequestAuthorized from src/main.go lines 70-99. -/
def isRequestAuthorized (sar : SubjectAccessReviewAPI)
    (protectedNamespaces additionalPrivilegedUsers : List Str) : Bool × Str :=
  let ra := sar.spec.resourceAttributes
  let isPrivilegedUser := additionalPrivilegedUsers.contains sar.spec.user
  let isPrivSystemUser :=
    ra.isSome && isPrivilegedSystemUser sar.spec.user protectedNamespaces
  let isProtectedNamespace :=
    match ra with
    | some a => protectedNamespaces.contains a.ns
    | none => false
  let isSecret :=
    match ra with
    | some a => a.resource == "secrets".toList
    | none => false
  let isReadonlyVerb :=
    match ra with
    | some a => readonlyVerbs.contains a.verb
    | none => false
  let isAllNamespaceRequest :=
    match ra with
    | some a => a.ns == [] || a.ns == "all".toList
    | none => false
  let isAllResourceRequest :=
    match ra with
    | some a => a.resource == "*".toList
    | none => false
  if isPrivilegedUser then
    (true, [])
  else if !isPrivSystemUser && isAllNamespaceRequest then
    (false, "Cannot make all namespace requests".toList)
  else if isProtectedNamespace && !isPrivSystemUser && isAllResourceRequest then
    (false, "Cannot make all resource requests in protected namespace".toList)
  else if isProtectedNamespace && !isPrivSystemUser && isSecret then
    (false, "Cannot access secrets in protected namespace".toList)
  else if isProtectedNamespace && !isPrivSystemUser && !isReadonlyVerb then
    (false, "Cannot write to protected namespace".toList)
  else
    (true, [])

/-- The no-opinion reason string written at src/main.go line 131 (built
from a character escape for the apostrophe). -/
def noOpinionReason : Str :=
  "Webhook doesn".toList ++ '\x27' :: "t give opinion, delegated to other authorizers".toList

/-- Mirrors the status rendering of CreateWebhookAuthorizer, src/main.go
lines 124-134: Denied is the negation of authorized; a denied status
carries the deny reason; a non-denied status carries the no-opinion reason
unless opinionMode grants allowed. -/
def renderDecision (authorized : Bool) (denyReason : Str) (opinionMode : Bool) :
    SubjectAccessReviewStatus :=
  if !authorized then
    ⟨false, true, denyReason⟩
  else if !opinionMode then
    ⟨false, false, noOpinionReason⟩
  else
    ⟨true, false, []⟩

/-- Mirrors the decision path of the handler returned by
CreateWebhookAuthorizer (src/main.go lines 104-139) on a successfully
decoded payload: evaluate, then render.  No field of the payload other
than those read by isRequestAuthorized is consulted. -/
def webhookHandle (sar : SubjectAccessReviewAPI)
    (protectedNamespaces additionalPrivilegedUsers : List Str)
    (opinionMode : Bool) : SubjectAccessReviewStatus :=
  let result := isRequestAuthorized sar protectedNamespaces additionalPrivilegedUsers
  renderDecision result.1 result.2 opinionMode

/-- Outcome of one row of the decision table of spec section 4.2. -/
inductive RuleOutcome where
  | allow : RuleOutcome
  | deny : Str → RuleOutcome
deriving DecidableEq, Repr

/-- Evaluates a decision table top-to-bottom, first matching rule wins
(spec section 4.2); an exhausted table allows, matching the table whose
last rule is an unconditional allow. -/
def firstMatch : List (Bool × RuleOutcome) → RuleOutcome
  | [] => RuleOutcome.allow
  | (b, o) :: rest => if b then o else firstMatch rest

/-- Converts a rule outcome to the evaluator result pair (authorized,
reason): allow carries an empty reason. -/
def outcomePair : RuleOutcome → Bool × Str
  | RuleOutcome.allow => (true, [])
  | RuleOutcome.deny r => (false, r)

/-- Modelled from the spec: the six-rule decision table of spec section
4.2 over the derived booleans, evaluated top-to-bottom with first match
winning.  Booleans reading resourceAttributes default to false when it is
absent; isPrivilegedIdentity is classify(user, protectedNamespaces) as the
spec writes it. -/
def specDecisionTable (sar : SubjectAccessReviewAPI)
    (protectedNamespaces additionalPrivilegedUsers : List Str) : Bool × Str :=
  let ra := sar.spec.resourceAttributes
  let isAllowListed := additionalPrivilegedUsers.contains sar.spec.user
  let isPrivilegedIdentity := isPrivilegedSystemUser sar.spec.user protectedNamespaces
  let isProtectedNamespace :=
    match ra with
    | some a => protectedNamespaces.contains a.ns
    | none => false
  let isAllNamespaceRequest :=
    match ra with
    | some a => a.ns == [] || a.ns == "all".toList
    | none => false
  let isSecretResource :=
    match ra with
    | some a => a.resource == "secrets".toList
    | none => false
  let isAllResourceRequest :=
    match ra with
    | some a => a.resource == "*".toList
    | none => false
  let isReadonlyVerb :=
    match ra with
    | some a => readonlyVerbs.contains a.verb
    | none => false
  outcomePair (firstMatch
    [(isAllowListed, RuleOutcome.allow),
     (!isPrivilegedIdentity && isAllNamespaceRequest,
       RuleOutcome.deny "Cannot make all namespace requests".toList),
     (isProtectedNamespace && !isPrivilegedIdentity && isAllResourceRequest,
       RuleOutcome.deny "Cannot make all resource requests in protected namespace".toList),
     (isProtectedNamespace && !isPrivilegedIdentity && isSecretResource,
       RuleOutcome.deny "Cannot access secrets in protected namespace".toList),
     (isProtectedNamespace && !isPrivilegedIdentity && !isReadonlyVerb,
       RuleOutcome.deny "Cannot write to protected namespace".toList),
     (true, RuleOutcome.allow)])

/-- The projection of a review to the only data the evaluator reads: the
user string, and namespace, resource and verb of the resource attributes
when present. -/
def decisionInputs (sar : SubjectAccessReviewAPI) : Str × Option (Str × Str × Str) :=
  (sar.spec.user, sar.spec.resourceAttributes.map fun a => (a.ns, a.resource, a.verb))

/-- Counts the colons of a string; splitColon produces one more segment
than this count. -/
def countColon : Str → Nat
  | [] => 0
  | c :: rest => (if c = ':' then 1 else 0) + countColon rest

/-- The default protected namespaces of the webhook flags and tests. -/
def defaultProtectedNamespaces : List Str :=
  ["kube-system".toList, "openstack-system".toList]

/-- The payload of input_test.go TestInvalidResourceKind: a syntactically
valid review whose declared kind is not SubjectAccessReview. -/
def invalidKindReview : SubjectAccessReviewAPI :=
  ⟨"authorization.k8s.io/v1".toList, "NotASubjectAccessReview".toList,
    ⟨some ⟨"kube-system".toList, "get".toList, "secrets".toList,
       "important-creds".toList, [], "v1".toList⟩,
     none, "kubernetes-admin".toList, [], ["system:authenticated".toList], [], []⟩⟩

/-- Boolean prefix test agrees with the existence of a list completing the
prefix to the whole string. -/
lemma isPrefixOf_iff_exists (p s : Str) : p.isPrefixOf s = true ↔ ∃ t, s = p ++ t := by
  induction p generalizing s with
  | nil => simp [List.isPrefixOf]
  | cons a p' ih =>
    cases s with
    | nil => simp [List.isPrefixOf]
    | cons b s' =>
      simp only [List.isPrefixOf, Bool.and_eq_true, beq_iff_eq, ih, List.cons_append,
        List.cons.injEq]
      constructor
      · rintro ⟨rfl, t, rfl⟩
        exact ⟨t, rfl, rfl⟩
      · rintro ⟨t, hb, hs⟩
        exact ⟨hb.symm, t, hs⟩

/-- A list is a Boolean prefix of itself extended by anything. -/
lemma prefixOf_append (p t : Str) : p.isPrefixOf (p ++ t) = true :=
  (isPrefixOf_iff_exists p (p ++ t)).mpr ⟨t, rfl⟩

/-- An anchored match decomposes the subject as the pattern followed by a
nonempty remainder. -/
lemma matchHere_decomp (pat s : Str) (h : matchHere pat s = true) :
    ∃ t, s = pat ++ t ∧ t ≠ [] := by
  unfold matchHere at h
  rw [Bool.and_eq_true] at h
  obtain ⟨h1, h2⟩ := h
  obtain ⟨t, rfl⟩ := (isPrefixOf_iff_exists pat _).mp h1
  rw [List.drop_left] at h2
  cases t with
  | nil => exact absurd h2 (by simp)
  | cons d t' => exact ⟨d :: t', rfl, by simp⟩

/-- The pattern matches anchored at the head of pattern-plus-remainder
when the remainder starts with a non-newline character. -/
lemma matchHere_append_cons (pat : Str) (d : Char) (t : Str) (hd : d ≠ '\n') :
    matchHere pat (pat ++ d :: t) = true := by
  unfold matchHere
  rw [prefixOf_append, List.drop_left]
  simp [hd]

/-- An anchored match at the head gives an unanchored match. -/
lemma reMatchString_of_matchHere (pat s : Str) (h : matchHere pat s = true) :
    reMatchString pat s = true := by
  cases s with
  | nil =>
    obtain ⟨t, ht, hne⟩ := matchHere_decomp pat [] h
    exact absurd (List.append_eq_nil.mp ht.symm).2 hne
  | cons c rest =>
    unfold reMatchString
    rw [h]
    rfl

/-- An unanchored match decomposes the subject around an occurrence of the
pattern with a nonempty remainder after it. -/
lemma reMatchString_decomp (pat s : Str) (h : reMatchString pat s = true) :
    ∃ pre t, s = pre ++ pat ++ t ∧ t ≠ [] := by
  induction s with
  | nil => simp [reMatchString] at h
  | cons c rest ih =>
    unfold reMatchString at h
    rw [Bool.or_eq_true] at h
    rcases h with hm | hr
    · obtain ⟨t, heq, hne⟩ := matchHere_decomp pat _ hm
      exact ⟨[], t, by simpa using heq, hne⟩
    · obtain ⟨pre, t, heq, hne⟩ := ih hr
      exact ⟨c :: pre, t, by simp [heq], hne⟩

/-- Any decomposition of the subject around the pattern with a nonempty
remainder witnesses occursWithTail. -/
lemma occursWithTail_append (pat pre t : Str) (ht : t ≠ []) :
    occursWithTail pat (pre ++ pat ++ t) = true := by
  induction pre with
  | nil =>
    simp only [List.nil_append]
    cases hs : pat ++ t with
    | nil => exact absurd (List.append_eq_nil.mp hs).2 ht
    | cons c rest =>
      have h1 : pat.isPrefixOf (c :: rest) = true := hs ▸ prefixOf_append pat t
      have h2 : pat.length < (c :: rest).length := by
        rw [← hs, List.length_append]
        have := List.length_pos.mpr ht
        omega
      simp [occursWithTail, h1]
      left
      simpa using h2
  | cons p pre' ih =>
    simp only [List.cons_append]
    simp [occursWithTail]
    right
    simpa [List.cons_append] using ih

/-- An unanchored regex match implies an occurrence with a tail. -/
lemma occursWithTail_of_reMatch (pat s : Str) (h : reMatchString pat s = true) :
    occursWithTail pat s = true := by
  obtain ⟨pre, t, heq, hne⟩ := reMatchString_decomp pat s h
  rw [heq]
  exact occursWithTail_append pat pre t hne

/-- The service-account literal extends the generic system literal. -/
lemma saPat_decomp : saPat = sysPat ++ "serviceaccount:".toList := by decide

/-- A service-account regex match forces an occurrence of the generic
system literal with a tail. -/
lemma occursWithTail_sysPat_of_sa (s : Str) (h : reMatchString saPat s = true) :
    occursWithTail sysPat s = true := by
  obtain ⟨pre, t, heq, hne⟩ := reMatchString_decomp saPat s h
  have h2 : s = (pre ++ sysPat) ++ ("serviceaccount:".toList ++ t) := by
    rw [heq, saPat_decomp]
    simp [List.append_assoc]
  rw [h2]
  exact occursWithTail_append sysPat pre _
    (fun hx => absurd (List.append_eq_nil.mp hx).1 (by decide))

/-- Colon counting distributes over append. -/
lemma countColon_append (a b : Str) : countColon (a ++ b) = countColon a + countColon b := by
  induction a with
  | nil => simp [countColon]
  | cons c a' ih =>
    simp [countColon, ih]
    omega

/-- splitColon produces one segment more than the number of colons. -/
lemma splitColon_length (s : Str) : (splitColon s).length = countColon s + 1 := by
  induction s with
  | nil => simp [splitColon, countColon]
  | cons c rest ih =>
    by_cases hc : c = ':'
    · simp [splitColon, countColon, hc, ih]
      omega
    · cases hrec : splitColon rest with
      | nil =>
        rw [hrec] at ih
        simp at ih
      | cons seg segs =>
        rw [hrec] at ih
        simp [splitColon, countColon, hc, hrec]
        simp at ih
        omega

/-- Splitting a colon-free segment followed by a colon peels off the
segment. -/
lemma splitColon_append_colon (a b : Str) (h : ':' ∉ a) :
    splitColon (a ++ ':' :: b) = a :: splitColon b := by
  induction a with
  | nil => simp [splitColon]
  | cons c a' ih =>
    have hc : ¬(c = ':') := by
      intro hx
      subst hx
      exact h (List.mem_cons_self _ _)
    have h' : ':' ∉ a' := fun hx => h (List.mem_cons_of_mem c hx)
    simp [List.cons_append, splitColon, hc, ih h']

/-- Splitting a colon-free string yields that single segment. -/
lemma splitColon_no_colon (a : Str) (h : ':' ∉ a) : splitColon a = [a] := by
  induction a with
  | nil => simp [splitColon]
  | cons c a' ih =>
    have hc : ¬(c = ':') := by
      intro hx
      subst hx
      exact h (List.mem_cons_self _ _)
    have h' : ':' ∉ a' := fun hx => h (List.mem_cons_of_mem c hx)
    simp [splitColon, hc, ih h']

/-- Whenever the service-account regex matches, the subject holds at least
two colons, so the split has at least three segments: the index access at
src/main.go line 59 is in bounds. -/
lemma sa_branch_segments (user : Str) (h : reMatchString saPat user = true) :
    2 < (splitColon user).length := by
  obtain ⟨pre, t, heq, -⟩ := reMatchString_decomp saPat user h
  have hcount : countColon user = countColon pre + countColon saPat + countColon t := by
    rw [heq, countColon_append, countColon_append]
  have hsa : countColon saPat = 2 := by decide
  rw [splitColon_length]
  omega

/-- C5: for every set of protected namespaces the subject classifier
returns not privileged for the user system:anonymous, even though that
string matches the generic system-identity pattern; the anonymous check
takes precedence over every pattern match. -/
theorem anonymous_never_privileged :
    reMatchString sysPat anonUser = true ∧
      ∀ pns : List Str, isPrivilegedSystemUser anonUser pns = false := by
  constructor
  · decide
  · intro pns
    simp [isPrivilegedSystemUser]

/-- C6: for every request whose user is a member of
additionalPrivilegedUsers the evaluator returns authorized, whatever the
namespace, resource, verb or absence of resource attributes. -/
theorem allowlisted_always_authorized (sar : SubjectAccessReviewAPI)
    (pns apu : List Str) (h : apu.contains sar.spec.user = true) :
    (isRequestAuthorized sar pns apu).1 = true := by
  have h' : sar.spec.user ∈ apu := by simpa using h
  simp [isRequestAuthorized, h']

/-- Witness for allowlisted_always_authorized: the allow-listed user
kubernetes-admin deleting every resource of protected kube-system. -/
theorem allowlisted_always_authorized_witness :
    (["kubernetes-admin".toList] : List Str).contains "kubernetes-admin".toList = true ∧
      (isRequestAuthorized
        ⟨"authorization.k8s.io/v1".toList, "SubjectAccessReview".toList,
          ⟨some ⟨"kube-system".toList, "delete".toList, "*".toList, [], [], []⟩,
           none, "kubernetes-admin".toList, [], [], [], []⟩⟩
        defaultProtectedNamespaces ["kubernetes-admin".toList]).1 = true :=
  ⟨by decide, allowlisted_always_authorized _ _ _ (by decide)⟩

/-- C9: a request with absent resourceAttributes is authorized with empty
reason for every user and configuration: no deny rule fires on a
non-resource request. -/
theorem nonresource_requests_authorized (sar : SubjectAccessReviewAPI)
    (pns apu : List Str) (h : sar.spec.resourceAttributes = none) :
    isRequestAuthorized sar pns apu = (true, []) := by
  by_cases hc : apu.contains sar.spec.user = true
  · simp [isRequestAuthorized, h, hc]
  · simp [isRequestAuthorized, h, hc]

/-- Witness for nonresource_requests_authorized: the anonymous user on a
non-resource request under the default configuration. -/
theorem nonresource_requests_authorized_witness :
    (⟨"authorization.k8s.io/v1".toList, "SubjectAccessReview".toList,
        ⟨none, some ⟨"/healthz".toList, "get".toList⟩, anonUser, [], [], [], []⟩⟩
      : SubjectAccessReviewAPI).spec.resourceAttributes = none ∧
      isRequestAuthorized
        ⟨"authorization.k8s.io/v1".toList, "SubjectAccessReview".toList,
          ⟨none, some ⟨"/healthz".toList, "get".toList⟩, anonUser, [], [], [], []⟩⟩
        defaultProtectedNamespaces [] = (true, []) :=
  ⟨rfl, nonresource_requests_authorized _ _ _ rfl⟩

/-- C7: the rendered decision never has denied and allowed both true, and
the renderer implements the three-way mapping of authorized, deny reason
and opinion mode. -/
theorem renderDecision_three_way (a : Bool) (r : Str) (o : Bool) :
    ¬((renderDecision a r o).denied = true ∧ (renderDecision a r o).allowed = true) ∧
      renderDecision a r o =
        (if a then
          (if o then ⟨true, false, []⟩ else ⟨false, false, noOpinionReason⟩)
         else ⟨false, true, r⟩) := by
  cases a <;> cases o <;> simp [renderDecision]

/-- C3: the handler of src/main.go performs no apiVersion, kind or user
validation: on the TestInvalidResourceKind payload of input_test.go, whose
kind is not SubjectAccessReview, it still evaluates the policy and renders
a decision instead of rejecting the request, contradicting that test's
expected 400 response. -/
theorem invalid_kind_still_evaluated :
    invalidKindReview.kind ≠ "SubjectAccessReview".toList ∧
      webhookHandle invalidKindReview defaultProtectedNamespaces [] false =
        ⟨false, true, "Cannot access secrets in protected namespace".toList⟩ := by
  constructor
  · decide
  · decide

/-- C8: the classifier is total: the fallible model of the colon-split
index access never reaches the out-of-range case and agrees with the total
classifier on every user string and namespace set, so the service-account
branch always finds its namespace segment and malformed or
metacharacter-laden identities merely fail to match. -/
theorem classifier_total_no_panic (user : Str) (pns : List Str) :
    isPrivilegedSystemUserChecked user pns = some (isPrivilegedSystemUser user pns) := by
  unfold isPrivilegedSystemUserChecked isPrivilegedSystemUser
  by_cases h1 : user = anonUser
  · simp [h1]
  · rw [if_neg h1, if_neg h1]
    by_cases h2 : reMatchString saPat user = true
    · rw [if_pos h2, if_pos h2]
      have hlen := sa_branch_segments user h2
      have hget : (splitColon user).get? 2 = some ((splitColon user).get ⟨2, hlen⟩) :=
        List.get?_eq_get hlen
      have hgetD : (splitColon user).getD 2 [] = (splitColon user).get ⟨2, hlen⟩ := by
        rw [List.getD_eq_get?, hget]
        rfl
      rw [hget, hgetD]
    · rw [if_neg h2, if_neg h2]
      by_cases h3 : reMatchString sysPat user = true
      · rw [if_pos h3, if_pos h3]
      · rw [if_neg h3, if_neg h3]

/-- Any string shorter than twenty-five characters cannot decompose as the
service-account literal, a nonempty namespace, a colon and a name. -/
lemma not_sa_shape_of_short (user : Str) (hlen : user.length < 25) :
    ¬∃ ns name : Str, ns ≠ [] ∧ name ≠ [] ∧ ':' ∉ ns ∧ ':' ∉ name ∧
        user = saPat ++ ns ++ ':' :: name := by
  rintro ⟨ns, name, hns, hname, -, -, heq⟩
  have h1 := congrArg List.length heq
  have h2 : saPat.length = 22 := by decide
  have h3 : 1 ≤ ns.length := List.length_pos.mpr hns
  have h4 : 1 ≤ name.length := List.length_pos.mpr hname
  simp only [List.length_append, List.length_cons, h2] at h1
  omega

/-- C2 as frozen is false: the classifier treats the user asystem:b as
privileged although it is not anonymous, is not a service-account
identity, and does not begin with the prefix system: — the Go regular
expressions are matched unanchored, so containing system: anywhere
suffices. -/
theorem classifier_nonsystem_counterexample :
    ¬(∀ (user : Str) (pns : List Str),
        user ≠ anonUser →
        (¬∃ ns name : Str, ns ≠ [] ∧ name ≠ [] ∧ ':' ∉ ns ∧ ':' ∉ name ∧
            user = saPat ++ ns ++ ':' :: name) →
        sysPat.isPrefixOf user = false →
        isPrivilegedSystemUser user pns = false) := by
  intro h
  have h1 := h "asystem:b".toList [] (by decide)
    (not_sa_shape_of_short _ (by decide)) (by decide)
  exact absurd h1 (by decide)

/-- C2 amended: a user string that is not system:anonymous, is not a
service-account identity, and does not contain the substring system:
immediately followed by at least one further character is classified not
privileged, for every set of protected namespaces. -/
theorem classifier_not_privileged_without_system (user : Str) (pns : List Str)
    (h1 : user ≠ anonUser)
    (h2 : ¬∃ ns name : Str, ns ≠ [] ∧ name ≠ [] ∧ ':' ∉ ns ∧ ':' ∉ name ∧
        user = saPat ++ ns ++ ':' :: name)
    (h3 : occursWithTail sysPat user = false) :
    isPrivilegedSystemUser user pns = false := by
  have hsa : reMatchString saPat user = false := by
    cases hx : reMatchString saPat user
    · rfl
    · exact absurd (occursWithTail_sysPat_of_sa user hx) (by simp [h3])
  have hsys : reMatchString sysPat user = false := by
    cases hx : reMatchString sysPat user
    · rfl
    · exact absurd (occursWithTail_of_reMatch sysPat user hx) (by simp [h3])
  simp [isPrivilegedSystemUser, h1, hsa, hsys]

/-- Witness for classifier_not_privileged_without_system: the ordinary
user kubernetes-admin under the default protected namespaces. -/
theorem classifier_not_privileged_without_system_witness :
    ("kubernetes-admin".toList : Str) ≠ anonUser ∧
      occursWithTail sysPat "kubernetes-admin".toList = false ∧
      isPrivilegedSystemUser "kubernetes-admin".toList defaultProtectedNamespaces = false :=
  ⟨by decide, by decide,
    classifier_not_privileged_without_system _ _ (by decide)
      (not_sa_shape_of_short _ (by decide)) (by decide)⟩

/-- C4 as frozen is false: for the nonempty colon-free namespace segment
consisting of a single newline character the service-account regex fails
to match (Go dot excludes newline), the generic system pattern then
matches, and the classifier grants privilege although the namespace is not
protected. -/
theorem serviceaccount_newline_counterexample :
    ¬(∀ (ns name : Str) (pns : List Str), ns ≠ [] → name ≠ [] → ':' ∉ ns → ':' ∉ name →
        isPrivilegedSystemUser (saPat ++ ns ++ ':' :: name) pns = pns.contains ns) := by
  intro h
  have h1 := h ['\n'] ['x'] [] (by decide) (by decide) (by decide) (by decide)
  exact absurd h1 (by decide)

/-- C4 amended: for a service-account identity whose namespace segment is
nonempty, colon-free and does not begin with a newline character, and
whose name segment is nonempty and colon-free, the classifier grants
privilege exactly when the namespace segment is protected. -/
theorem serviceaccount_privileged_iff_protected (hd : Char) (tl name : Str)
    (pns : List Str) (hhd : hd ≠ '\n') (hname : name ≠ [])
    (hcns : ':' ∉ hd :: tl) (hcname : ':' ∉ name) :
    isPrivilegedSystemUser (saPat ++ (hd :: tl) ++ ':' :: name) pns
      = pns.contains (hd :: tl) := by
  have hanon : saPat ++ (hd :: tl) ++ ':' :: name ≠ anonUser := by
    intro heq
    have h1 := congrArg List.length heq
    have h2 : saPat.length = 22 := by decide
    have h3 : anonUser.length = 16 := by decide
    simp only [List.length_append, List.length_cons, h2, h3] at h1
    omega
  have hmatch : reMatchString saPat (saPat ++ (hd :: tl) ++ ':' :: name) = true := by
    have hshape : saPat ++ (hd :: tl) ++ ':' :: name
        = saPat ++ hd :: (tl ++ ':' :: name) := by
      simp [List.append_assoc]
    rw [hshape]
    exact reMatchString_of_matchHere _ _ (matchHere_append_cons saPat hd _ hhd)
  have hsplit : splitColon (saPat ++ (hd :: tl) ++ ':' :: name)
      = ["system".toList, "serviceaccount".toList, hd :: tl, name] := by
    have huser : saPat ++ (hd :: tl) ++ ':' :: name
        = "system".toList ++ ':'
            :: ("serviceaccount".toList ++ ':' :: ((hd :: tl) ++ ':' :: name)) := by
      rfl
    rw [huser, splitColon_append_colon _ _ (by decide),
      splitColon_append_colon _ _ (by decide),
      splitColon_append_colon _ _ hcns, splitColon_no_colon name hcname]
  unfold isPrivilegedSystemUser
  rw [if_neg hanon, if_pos hmatch, hsplit]
  rfl

/-- Witness for serviceaccount_privileged_iff_protected: the service
account system:serviceaccount:kube-system:sa1 is privileged under the
default protected namespaces. -/
theorem serviceaccount_privileged_iff_protected_witness :
    ('k' : Char) ≠ '\n' ∧ ("sa1".toList : Str) ≠ [] ∧
      ':' ∉ ('k' :: "ube-system".toList) ∧ ':' ∉ "sa1".toList ∧
      isPrivilegedSystemUser (saPat ++ ('k' :: "ube-system".toList) ++ ':' :: "sa1".toList)
          defaultProtectedNamespaces
        = defaultProtectedNamespaces.contains ('k' :: "ube-system".toList) :=
  ⟨by decide, by decide, by decide, by decide,
    serviceaccount_privileged_iff_protected 'k' _ _ _ (by decide) (by decide)
      (by decide) (by decide)⟩

/-- Table evaluation commutes with the outcome-to-pair conversion one row
at a time. -/
lemma outcomePair_cons (b : Bool) (o : RuleOutcome) (rest : List (Bool × RuleOutcome)) :
    outcomePair (firstMatch ((b, o) :: rest)) =
      if b then outcomePair o else outcomePair (firstMatch rest) := by
  cases b <;> simp [firstMatch]

/-- An exhausted table allows. -/
lemma firstMatch_nil : firstMatch [] = RuleOutcome.allow := rfl

/-- The pair of an allow outcome. -/
lemma outcomePair_allow : outcomePair RuleOutcome.allow = (true, []) := rfl

/-- The pair of a deny outcome. -/
lemma outcomePair_deny (r : Str) : outcomePair (RuleOutcome.deny r) = (false, r) := rfl

/-- C1: for every decoded review and configuration the evaluator of
src/main.go returns exactly the outcome of the six-rule decision table of
the spec, evaluated top-to-bottom with first match winning, with the
booleans reading resourceAttributes false when it is absent. -/
theorem evaluator_matches_spec_table (sar : SubjectAccessReviewAPI)
    (pns apu : List Str) :
    isRequestAuthorized sar pns apu = specDecisionTable sar pns apu := by
  rcases sar with ⟨av, k, ⟨ra, nra, user, g1, g2, ex, uid⟩⟩
  cases ra with
  | none => simp [isRequestAuthorized, specDecisionTable, firstMatch, outcomePair]
  | some a =>
    simp only [isRequestAuthorized, specDecisionTable, outcomePair_cons, firstMatch_nil,
      outcomePair_allow, outcomePair_deny, Option.isSome_some, Bool.true_and, ite_self]

/-- C10: the decision depends only on the user string and the namespace,
resource and verb of the resource attributes: two reviews equal under that
projection yield the same evaluator pair and the same rendered status for
every configuration and opinion mode. -/
theorem decision_depends_only_on_inputs (sar1 sar2 : SubjectAccessReviewAPI)
    (pns apu : List Str) (o : Bool)
    (h : decisionInputs sar1 = decisionInputs sar2) :
    isRequestAuthorized sar1 pns apu = isRequestAuthorized sar2 pns apu ∧
      webhookHandle sar1 pns apu o = webhookHandle sar2 pns apu o := by
  rcases sar1 with ⟨av1, k1, ⟨ra1, nra1, u1, ga1, gb1, ex1, uid1⟩⟩
  rcases sar2 with ⟨av2, k2, ⟨ra2, nra2, u2, ga2, gb2, ex2, uid2⟩⟩
  cases ra1 with
  | none =>
    cases ra2 with
    | none =>
      simp only [decisionInputs, Option.map_none, Prod.mk.injEq] at h
      rw [h.1]
      exact ⟨rfl, rfl⟩
    | some a2 => simp [decisionInputs] at h
  | some a1 =>
    cases ra2 with
    | none => simp [decisionInputs] at h
    | some a2 =>
      rcases a1 with ⟨ns1, v1, r1, n1, ag1, avr1⟩
      rcases a2 with ⟨ns2, v2, r2, n2, ag2, avr2⟩
      unfold decisionInputs at h
      simp at h
      obtain ⟨hu, hns, hr, hv⟩ := h
      subst hu
      subst hns
      subst hr
      subst hv
      exact ⟨rfl, rfl⟩

/-- Witness for decision_depends_only_on_inputs: two reviews differing in
groups, extra, uid, nonResourceAttributes and the name, apiGroup and
apiVersion of the resource attributes receive identical decisions. -/
theorem decision_depends_only_on_inputs_witness :
    decisionInputs
        ⟨"authorization.k8s.io/v1".toList, "SubjectAccessReview".toList,
          ⟨some ⟨"kube-system".toList, "get".toList, "secrets".toList,
             "important-creds".toList, [], "v1".toList⟩,
           none, "kubernetes-not-admin".toList, [],
           ["system:authenticated".toList], [], "uid-1".toList⟩⟩ =
      decisionInputs
        ⟨"authorization.k8s.io/v1".toList, "SubjectAccessReview".toList,
          ⟨some ⟨"kube-system".toList, "get".toList, "secrets".toList,
             "other-name".toList, "apps".toList, "v2".toList⟩,
           some ⟨"/healthz".toList, "get".toList⟩, "kubernetes-not-admin".toList,
           ["g".toList], [], [("k".toList, [])], "uid-2".toList⟩⟩ ∧
      isRequestAuthorized
          ⟨"authorization.k8s.io/v1".toList, "SubjectAccessReview".toList,
            ⟨some ⟨"kube-system".toList, "get".toList, "secrets".toList,
               "important-creds".toList, [], "v1".toList⟩,
             none, "kubernetes-not-admin".toList, [],
             ["system:authenticated".toList], [], "uid-1".toList⟩⟩
          defaultProtectedNamespaces [] =
        isRequestAuthorized
          ⟨"authorization.k8s.io/v1".toList, "SubjectAccessReview".toList,
            ⟨some ⟨"kube-system".toList, "get".toList, "secrets".toList,
               "other-name".toList, "apps".toList, "v2".toList⟩,
             some ⟨"/healthz".toList, "get".toList⟩, "kubernetes-not-admin".toList,
             ["g".toList], [], [("k".toList, [])], "uid-2".toList⟩⟩
          defaultProtectedNamespaces [] ∧
      webhookHandle
          ⟨"authorization.k8s.io/v1".toList, "SubjectAccessReview".toList,
            ⟨some ⟨"kube-system".toList, "get".toList, "secrets".toList,
               "important-creds".toList, [], "v1".toList⟩,
             none, "kubernetes-not-admin".toList, [],
             ["system:authenticated".toList], [], "uid-1".toList⟩⟩
          defaultProtectedNamespaces [] false =
        webhookHandle
          ⟨"authorization.k8s.io/v1".toList, "SubjectAccessReview".toList,
            ⟨some ⟨"kube-system".toList, "get".toList, "secrets".toList,
               "other-name".toList, "apps".toList, "v2".toList⟩,
             some ⟨"/healthz".toList, "get".toList⟩, "kubernetes-not-admin".toList,
             ["g".toList], [], [("k".toList, [])], "uid-2".toList⟩⟩
          defaultProtectedNamespaces [] false :=
  ⟨by decide,
    (decision_depends_only_on_inputs _ _ defaultProtectedNamespaces [] false (by decide)).1,
    (decision_depends_only_on_inputs _ _ defaultProtectedNamespaces [] false (by decide)).2⟩
